import Mathlib

/-!
# Verification of the Freenove 4WD web-app robot bridge

Shallow embedding of `src/webapp/server/main.py` (the `RobotBridge` class):
its shared robot-state record, the status-line handler, `send_command`,
`connect` / `disconnect`, the exact-read primitive `_recv_exact`, and the
two reader loops `_command_loop` and `_video_loop`.

Modelling conventions:
* Python `float` values are modelled as `ℚ` (exact rational arithmetic);
  every counterexample below is chosen far from any rounding boundary, so
  the classification agrees with IEEE-754 double arithmetic.
* Byte strings are `List ℕ`; the command stream is modelled after UTF-8
  decoding, i.e. as `String` chunks.
* Socket reads are driven by an explicit trace of per-`recv`-call events
  (`timeout` / `error` / a chunk of available bytes); the shared `running`
  flag, which other threads may clear at any time, is modelled as a value
  observed at each trace step.
* Each mutation of the shared state that the Python code performs inside
  one `with self.lock:` block is modelled as one `CriticalSection`, a list
  of field writes applied together.
-/

namespace FreenoveBridge

/-- The mutable `RobotState` dataclass (`main.py`, lines 39-50).
`power_percent` is an `ℤ` because Python's `int(...)` produces an `int`;
timestamps are modelled as `ℚ`. -/
structure RobotState where
  connected : Bool := false
  ip : Option String := none
  power_percent : Option ℤ := none
  ultrasonic_cm : Option ℚ := none
  light_left_v : Option ℚ := none
  light_right_v : Option ℚ := none
  last_command : Option String := none
  last_status : Option String := none
  last_frame : Option (List ℕ) := none
  last_frame_time : Option ℚ := none
deriving DecidableEq

/-- The freshly constructed state (`RobotState()` with all defaults). -/
def initialState : RobotState := {}

/-- The bridge-level fields relevant to control flow: the shared state, whether
each socket object is present (`command_socket` / `video_socket` are `None` or
not), and the `running` flag as last written by `connect` / `disconnect`. -/
structure BridgeState where
  state : RobotState := initialState
  hasCommandSocket : Bool := false
  hasVideoSocket : Bool := false
  running : Bool := false
deriving DecidableEq

/-- One single-field write to the shared `RobotState`. -/
inductive FieldWrite where
  | lastStatus (v : String)
  | ultrasonicCm (v : ℚ)
  | lightLeftV (v : ℚ)
  | lightRightV (v : ℚ)
  | powerPercent (v : ℤ)
  | lastCommand (v : String)
  | lastFrame (v : List ℕ)
  | lastFrameTime (v : ℚ)
deriving DecidableEq

/-- A critical section: the field writes performed inside one
`with self.lock:` block, applied together. -/
abbrev CriticalSection : Type := List FieldWrite

/-- Apply one field write to the state. -/
def applyWrite (s : RobotState) : FieldWrite → RobotState
  | .lastStatus v => { s with last_status := some v }
  | .ultrasonicCm v => { s with ultrasonic_cm := some v }
  | .lightLeftV v => { s with light_left_v := some v }
  | .lightRightV v => { s with light_right_v := some v }
  | .powerPercent v => { s with power_percent := some v }
  | .lastCommand v => { s with last_command := some v }
  | .lastFrame v => { s with last_frame := some v }
  | .lastFrameTime v => { s with last_frame_time := some v }

/-- Apply every write of one critical section. -/
def applySection (s : RobotState) (cs : CriticalSection) : RobotState :=
  cs.foldl applyWrite s

/-- Apply a sequence of critical sections in order. -/
def runSections (s : RobotState) (l : List CriticalSection) : RobotState :=
  l.foldl applySection s

/-- Model of Python's `str.split(sep)` for a one-character separator, on the
character list: splitting never yields `[]` (splitting the empty string gives
`[""]`), and adjacent separators yield empty segments, exactly as in Python.
`acc` holds the current segment, reversed. -/
def pySplitAux (sep : Char) : List Char → List Char → List (List Char)
  | [], acc => [acc.reverse]
  | c :: cs, acc =>
    if c = sep then acc.reverse :: pySplitAux sep cs []
    else pySplitAux sep cs (c :: acc)

/-- Python's `s.split(sep)` for a one-character separator. -/
def pySplit (s : String) (sep : Char) : List String :=
  (pySplitAux sep s.toList []).map String.mk

/-- Python's `str.strip()` with no argument: remove leading and trailing
whitespace.  (CPython strips all Unicode whitespace; `Char.isWhitespace`
covers space, tab, CR and LF, which is every whitespace character the
device's ASCII protocol can produce.) -/
def pyStrip (s : String) : String :=
  String.mk
    (((s.toList.dropWhile Char.isWhitespace).reverse.dropWhile Char.isWhitespace).reverse)

/-- Numeric value of a list of decimal digit characters (most significant
first); helper for the model of Python's `float()`. -/
def digitsVal (cs : List Char) : ℕ :=
  cs.foldl (fun a c => a * 10 + (c.toNat - 48)) 0

/-- Model of Python's `float()` on an unsigned body: a digit string with at
most one decimal point, at least one digit overall. -/
def pyFloatCore (cs : List Char) : Option ℚ :=
  let intPart := cs.takeWhile Char.isDigit
  match cs.dropWhile Char.isDigit with
  | [] => if intPart = [] then none else some (digitsVal intPart)
  | '.' :: frac =>
    if frac.all Char.isDigit ∧ (intPart ≠ [] ∨ frac ≠ []) then
      some ((digitsVal intPart : ℚ) + (digitsVal frac : ℚ) / (10 : ℚ) ^ frac.length)
    else none
  | _ => none

/-- Model of Python's builtin `float(str)` as used by `_handle_status_line`:
an optional sign followed by decimal digits with at most one point.
(Exponents, `inf` / `nan`, digit underscores and surrounding whitespace are
accepted by CPython but never arise from the device protocol; fields that use
them fall outside every claim below and are conservatively rejected here.) -/
def pyFloat (s : String) : Option ℚ :=
  match s.toList with
  | '-' :: cs => (pyFloatCore cs).map (fun q => -q)
  | '+' :: cs => pyFloatCore cs
  | cs => pyFloatCore cs

/-- Model of Python's builtin `int(float)`: truncation toward zero. -/
def pyInt (q : ℚ) : ℤ :=
  if q < 0 then ⌈q⌉ else ⌊q⌋

/-- The clamped linear battery mapping computed at `main.py` line 178:
`max(0, min(100, ((value - 7) / 1.40) * 100))`, in exact rationals
(`1.40 = 7/5`). -/
def powerClamp (v : ℚ) : ℚ :=
  max 0 (min 100 ((v - 7) / (7 / 5) * 100))

/-- The critical sections performed by the tag dispatch of
`_handle_status_line` (`main.py` lines 154-180), after the unconditional
recording of the raw line.  `parts` is `line.split("#")`, so the tag is the
head and the fields are the tail; `len(parts) > 1` (resp. `> 2`) becomes a
length condition on the tail. -/
def tagSections (parts : List String) : List CriticalSection :=
  match parts with
  | [] => []
  | cmd :: fields =>
    if cmd = "CMD_SONIC" ∧ 1 ≤ fields.length then
      match pyFloat (fields.getD 0 "") with
      | none => []
      | some d => [[FieldWrite.ultrasonicCm d]]
    else if cmd = "CMD_LIGHT" ∧ 2 ≤ fields.length then
      match pyFloat (fields.getD 0 ""), pyFloat (fields.getD 1 "") with
      | some l, some r => [[FieldWrite.lightLeftV l, FieldWrite.lightRightV r]]
      | _, _ => []
    else if cmd = "CMD_POWER" ∧ 1 ≤ fields.length then
      match pyFloat (fields.getD 0 "") with
      | none => []
      | some v => [[FieldWrite.powerPercent (pyInt (powerClamp v))]]
    else []

/-- `_handle_status_line` (`main.py` lines 150-180) as the list of critical
sections it performs: first the unconditional `last_status := line`, then
whatever the tag dispatch adds. -/
def handle_status_line (line : String) : List CriticalSection :=
  [[FieldWrite.lastStatus line]] ++ tagSections (pySplit line '#')

/-- The state after `_handle_status_line(line)`. -/
def runHandle (s : RobotState) (line : String) : RobotState :=
  runSections s (handle_status_line line)

/-- `disconnect` (`main.py` lines 90-108): clears `running`, shuts down and
closes both sockets (errors from already-closed sockets are swallowed and have
no state effect), sets both socket fields to `None`, then under the lock sets
`connected := False` and `last_status := "Disconnected"`.  All other state
fields are untouched. -/
def disconnect (b : BridgeState) : BridgeState :=
  { state := { b.state with connected := false, last_status := some "Disconnected" }
    hasCommandSocket := false
    hasVideoSocket := false
    running := false }

/-- Errors `send_command` can raise (`main.py` lines 110-116): the
`RuntimeError("Command socket is not connected")`, or an `OSError` from
`sendall`. -/
inductive SendError where
  | notConnected
  | transport
deriving DecidableEq

/-- `send_command` (`main.py` lines 110-116).  `writeOk` models whether the
blocking `sendall` succeeds; on any error the state is returned unchanged.
On success `last_command := command.strip()` is recorded under the lock
(Python `str.strip()` is modelled by `pyStrip`). -/
def send_command (b : BridgeState) (writeOk : Bool) (command : String) :
    Except SendError Unit × BridgeState :=
  if ¬ b.hasCommandSocket ∨ ¬ b.state.connected then
    (.error .notConnected, b)
  else if ¬ writeOk then
    (.error .transport, b)
  else
    (.ok (), { b with state := { b.state with last_command := some (pyStrip command) } })

/-- `connect` (`main.py` lines 64-88) up to the point the reader threads
start.  `openOk` models whether both `socket.connect` calls succeed (the
claims only distinguish all-success from any-failure).  Returns
`(raised, newState)` where `raised` records that the `OSError` was re-raised
to the caller.  Mirrors the source order: full `disconnect()`, then under the
lock `ip := ip; connected := False; last_status := None`, then both sockets
are created; on failure `disconnect()` runs again and the error propagates;
on success `connected := True` and `running := True`. -/
def connect (ip : String) (openOk : Bool) (b : BridgeState) : Bool × BridgeState :=
  let b1 := disconnect b
  let b2 := { b1 with
    state := { b1.state with ip := some ip, connected := false, last_status := none } }
  let b3 := { b2 with hasCommandSocket := true, hasVideoSocket := true }
  if openOk then
    (false, { b3 with state := { b3.state with connected := true }, running := true })
  else
    (true, disconnect b3)

/-- Outcome of one `sock.recv(...)` call, as seen by a reader loop. -/
inductive RecvEv where
  | timeout
  | err
  | chunk (bs : List ℕ)
deriving DecidableEq

/-- One step of a socket-driven loop: the value of the shared `running` flag
observed at the loop test of this iteration, and, if a `recv` is then issued,
its outcome.  The bytes of a `chunk` are what the peer has made available;
`recv(n)` delivers at most `n` of them. -/
structure Step where
  running : Bool
  ev : RecvEv
deriving DecidableEq

/-- Result of `_recv_exact`: `ok` is a returned byte string (Python returns
`data`, which is shorter than requested when the `running` flag was observed
false), `fail` is a returned `None`, `outOfTrace` means the call would issue
more `recv` calls than the trace provides (i.e. it is still blocked). -/
inductive RecvRes where
  | ok (bs : List ℕ)
  | fail
  | outOfTrace
deriving DecidableEq

/-- `_recv_exact` (`main.py` lines 182-194) over an event trace.  Per
iteration: if `data` is already long enough, return it (consuming nothing);
otherwise consume one step — if its observed `running` is false the loop
exits returning the accumulated `data`; a `timeout` retries; an `OSError`
returns `None`; a `recv` delivering no bytes returns `None`; otherwise at
most `length - len(data)` of the available bytes are appended.  Returns the
result together with the unconsumed remainder of the trace. -/
def recv_exact (length : ℕ) (data : List ℕ) : List Step → RecvRes × List Step
  | [] => if length ≤ data.length then (.ok data, []) else (.outOfTrace, [])
  | s :: rest =>
    if length ≤ data.length then (.ok data, s :: rest)
    else if s.running = false then (.ok data, rest)
    else match s.ev with
      | .timeout => recv_exact length data rest
      | .err => (.fail, rest)
      | .chunk bs =>
        let c := bs.take (length - data.length)
        if c = [] then (.fail, rest)
        else recv_exact length (data ++ c) rest

/-- Result of running a reader loop over a finite trace: `done` means the
loop exited and ran its trailing `self.disconnect()`; `outOfTrace` means the
trace (or fuel) was exhausted with the loop still going; `crashed` models an
uncaught exception killing the thread **without** running `disconnect` (in
`_video_loop` this happens when `struct.unpack("<L", header)` receives a
byte string whose length is not 4, possible only when the `running` flag is
cleared mid-header-read). -/
inductive LoopRes where
  | done (b : BridgeState)
  | outOfTrace (b : BridgeState)
  | crashed (b : BridgeState)
deriving DecidableEq

/-- The bridge state a loop result carries. -/
def LoopRes.stateOf : LoopRes → BridgeState
  | .done b => b
  | .outOfTrace b => b
  | .crashed b => b

/-- The inner `while "\n" in buffer:` of `_command_loop` (`main.py` lines
142-147): every complete line before a newline is stripped and, if nonempty,
handled; the text after the last newline remains as the new buffer.
`"a\nb\nc".split` iteration is equivalent to `splitOn "\n"` with the last
segment kept as the buffer. -/
def processBuffer (buffer : String) (s : RobotState) : String × RobotState :=
  let segs := pySplit buffer '\n'
  let s' := segs.dropLast.foldl
    (fun st l => if pyStrip l = "" then st else runHandle st (pyStrip l)) s
  (segs.getLastD "", s')

/-- Outcome of one `recv` on the command socket, after UTF-8 decoding (which,
with `errors="ignore"`, never fails): a timeout, an `OSError`, or a decoded
chunk of text (`""` models a zero-byte read, i.e. the peer closed). -/
inductive CmdEv where
  | timeout
  | err
  | chunk (s : String)
deriving DecidableEq

/-- `_command_loop` (`main.py` lines 128-148) over an event trace.  Loop test
order mirrors the source: the `running` flag observed this iteration, then
the socket check, then the `recv`.  A timeout continues; an `OSError` or a
zero-byte read breaks; any exit of the loop runs the trailing
`self.disconnect()`. -/
def command_loop (buffer : String) (b : BridgeState) :
    List (Bool × CmdEv) → LoopRes
  | [] => .outOfTrace b
  | (running, ev) :: rest =>
    if running = false then .done (disconnect b)
    else if b.hasCommandSocket = false then .done (disconnect b)
    else match ev with
      | .timeout => command_loop buffer b rest
      | .err => .done (disconnect b)
      | .chunk d =>
        if d = "" then .done (disconnect b)
        else
          let (buffer', s') := processBuffer (buffer ++ d) b.state
          command_loop buffer' { b with state := s' } rest

/-- `struct.unpack("<L", header)[0]` for a 4-byte string: little-endian
unsigned 32-bit value. -/
def leVal (bs : List ℕ) : ℕ :=
  bs.getD 0 0 + 256 * bs.getD 1 0 + 65536 * bs.getD 2 0 + 16777216 * bs.getD 3 0

/-- `_video_loop` (`main.py` lines 196-212) over an event trace, with a time
oracle `times` supplying successive values of `time.time()`.  Per iteration:
loop test (`running`, then socket), 4-byte header via `_recv_exact`, break
if it is falsy (`None` or empty), crash if `unpack` gets a wrong-length
string, skip a zero length (`frame_length <= 0` with an unsigned decode is
only 0), read the payload via `_recv_exact`, break if falsy, else store
frame and timestamp together in one critical section.  Fuel bounds the
number of iterations; exhaustion is reported as `outOfTrace`. -/
def video_loop : ℕ → BridgeState → List ℚ → List Step → LoopRes
  | 0, b, _, _ => .outOfTrace b
  | fuel + 1, b, times, trace =>
    if b.running = false then .done (disconnect b)
    else if b.hasVideoSocket = false then .done (disconnect b)
    else match recv_exact 4 [] trace with
      | (.outOfTrace, _) => .outOfTrace b
      | (.fail, _) => .done (disconnect b)
      | (.ok hdr, rest) =>
        if hdr = [] then .done (disconnect b)
        else if hdr.length = 4 then
          if leVal hdr = 0 then video_loop fuel b times rest
          else match recv_exact (leVal hdr) [] rest with
            | (.outOfTrace, _) => .outOfTrace b
            | (.fail, _) => .done (disconnect b)
            | (.ok frame, rest2) =>
              if frame = [] then .done (disconnect b)
              else
                video_loop fuel
                  { b with state := { b.state with
                      last_frame := some frame,
                      last_frame_time := some (times.headD 0) } }
                  times.tail rest2
        else .crashed b

/-- The spec's invariant on `power_percent`: when present, it lies in
`[0, 100]`. -/
def PowerInv (s : RobotState) : Prop :=
  match s.power_percent with
  | none => True
  | some p => 0 ≤ p ∧ p ≤ 100

instance (s : RobotState) : Decidable (PowerInv s) := by
  unfold PowerInv
  exact match s.power_percent with
    | none => inferInstanceAs (Decidable True)
    | some _ => inferInstanceAs (Decidable (_ ∧ _))

/-! ## Helper lemmas -/

/-- Unfolding the handler on a `CMD_POWER` line with a parsing field. -/
lemma runHandle_power (s : RobotState) (line f : String) (rest : List String) (v : ℚ)
    (hsplit : pySplit line '#' = "CMD_POWER" :: f :: rest)
    (hv : pyFloat f = some v) :
    runHandle s line =
      { s with last_status := some line,
               power_percent := some (pyInt (powerClamp v)) } := by
  simp [runHandle, handle_status_line, tagSections, hsplit, hv,
    runSections, applySection, applyWrite]

/-- The clamped power value is nonnegative, so `int()` truncation is `⌊·⌋`. -/
lemma pyInt_powerClamp (v : ℚ) : pyInt (powerClamp v) = ⌊powerClamp v⌋ := by
  have h0 : (0 : ℚ) ≤ powerClamp v := le_max_left 0 _
  simp [pyInt, not_lt.mpr h0]

/-! ## Claims -/

/-- Claim C1, counterexample: on the status line `CMD_POWER#7.5` (raw voltage
`7.5`) the handler stores `power_percent = 35`, whereas the claimed formula
`round(clamp(((v - 7) / 1.40) * 100, 0, 100))` gives `36`: the code converts
with Python `int(...)`, which truncates, not rounds. -/
theorem c1_counterexample :
    pyFloat "7.5" = some (15 / 2 : ℚ) ∧
    (runHandle initialState "CMD_POWER#7.5").power_percent = some 35 ∧
    round (powerClamp (15 / 2 : ℚ)) = 36 ∧
    (runHandle initialState "CMD_POWER#7.5").power_percent ≠
      some (round (powerClamp (15 / 2 : ℚ))) := by
  have hv : pyFloat "7.5" = some (15 / 2 : ℚ) := by
    rw [show pyFloat "7.5"
        = some ((digitsVal ['7'] : ℚ) + (digitsVal ['5'] : ℚ) / (10 : ℚ) ^ 1) from rfl]
    rw [show digitsVal ['7'] = 7 from rfl, show digitsVal ['5'] = 5 from rfl]
    norm_num
  have hcl : powerClamp (15 / 2 : ℚ) = 250 / 7 := by
    rw [powerClamp]
    rw [show ((15 : ℚ) / 2 - 7) / (7 / 5) * 100 = 250 / 7 by norm_num]
    rw [min_def, max_def]
    norm_num
  have hpp : (runHandle initialState "CMD_POWER#7.5").power_percent = some 35 := by
    rw [runHandle_power initialState "CMD_POWER#7.5" "7.5" [] (15 / 2) rfl hv]
    show some (pyInt (powerClamp (15 / 2 : ℚ))) = some 35
    rw [hcl, pyInt, if_neg (by norm_num)]
    norm_num [Int.floor_eq_iff]
  have hround : round (powerClamp (15 / 2 : ℚ)) = 36 := by
    rw [hcl]
    norm_num [round_eq, Int.floor_eq_iff]
  refine ⟨hv, hpp, hround, ?_⟩
  rw [hpp, hround]
  decide

/-- Claim C1 (amended): for every status line of tag `CMD_POWER` whose first
field parses as a float raw voltage `v`, the handler sets `power_percent` to
the clamped linear mapping **truncated toward zero** (equivalently `⌊·⌋`,
the clamp being nonnegative), not rounded; `last_status` records the raw
line and no other field changes. -/
theorem c1_power_truncated (s : RobotState) (line f : String) (rest : List String) (v : ℚ)
    (hsplit : pySplit line '#' = "CMD_POWER" :: f :: rest)
    (hv : pyFloat f = some v) :
    runHandle s line =
      { s with last_status := some line,
               power_percent := some (pyInt (powerClamp v)) } ∧
    pyInt (powerClamp v) = ⌊powerClamp v⌋ :=
  ⟨runHandle_power s line f rest v hsplit hv, pyInt_powerClamp v⟩

/-- Claim C1 witness: concrete application on the line `CMD_POWER#8`
(raw voltage 8, parsed as `digitsVal ['8'] = 8`). -/
theorem c1_witness :
    runHandle initialState "CMD_POWER#8" =
      { initialState with
          last_status := some "CMD_POWER#8",
          power_percent := some (pyInt (powerClamp (digitsVal ['8'] : ℚ))) } ∧
    pyInt (powerClamp (digitsVal ['8'] : ℚ)) = ⌊powerClamp (digitsVal ['8'] : ℚ)⌋ :=
  c1_power_truncated initialState "CMD_POWER#8" "8" [] (digitsVal ['8'] : ℚ) rfl rfl

/-- Claim C3: for every status line of tag `CMD_LIGHT`: with at least two
fields that both parse as floats, `light_left_v` and `light_right_v` are set
together inside one critical section (the handler's section list contains a
single section holding exactly the two writes); with a missing field or
either parse failing, neither field is updated (only `last_status` changes). -/
theorem c3_light_atomic_pair (s : RobotState) (line : String) :
    (∀ a b rest l r, pySplit line '#' = "CMD_LIGHT" :: a :: b :: rest →
      pyFloat a = some l → pyFloat b = some r →
      handle_status_line line =
        [[FieldWrite.lastStatus line],
         [FieldWrite.lightLeftV l, FieldWrite.lightRightV r]] ∧
      runHandle s line =
        { s with last_status := some line,
                 light_left_v := some l, light_right_v := some r }) ∧
    (∀ a, pySplit line '#' = ["CMD_LIGHT", a] →
      runHandle s line = { s with last_status := some line }) ∧
    (∀ a b rest, pySplit line '#' = "CMD_LIGHT" :: a :: b :: rest →
      pyFloat a = none ∨ pyFloat b = none →
      runHandle s line = { s with last_status := some line }) := by
  refine ⟨?_, ?_, ?_⟩
  · intro a b rest l r hsplit ha hb
    constructor
    · simp [handle_status_line, tagSections, hsplit, ha, hb]
    · simp [runHandle, handle_status_line, tagSections, hsplit, ha, hb,
        runSections, applySection, applyWrite]
  · intro a hsplit
    simp [runHandle, handle_status_line, tagSections, hsplit,
      runSections, applySection, applyWrite]
  · intro a b rest hsplit hfail
    rcases hfail with ha | hb
    · simp [runHandle, handle_status_line, tagSections, hsplit, ha,
        runSections, applySection, applyWrite]
    · cases hA : pyFloat a <;>
        simp [runHandle, handle_status_line, tagSections, hsplit, hA, hb,
          runSections, applySection, applyWrite]

/-- Claim C3 witness: `CMD_LIGHT#1.2#3.4` updates the pair in one section;
`CMD_LIGHT#1.2` updates neither. -/
theorem c3_witness :
    (handle_status_line "CMD_LIGHT#1.2#3.4" =
      [[FieldWrite.lastStatus "CMD_LIGHT#1.2#3.4"],
       [FieldWrite.lightLeftV ((digitsVal ['1'] : ℚ) + (digitsVal ['2'] : ℚ) / (10 : ℚ) ^ 1),
        FieldWrite.lightRightV ((digitsVal ['3'] : ℚ) + (digitsVal ['4'] : ℚ) / (10 : ℚ) ^ 1)]] ∧
     runHandle initialState "CMD_LIGHT#1.2#3.4" =
      { initialState with
          last_status := some "CMD_LIGHT#1.2#3.4",
          light_left_v := some ((digitsVal ['1'] : ℚ) + (digitsVal ['2'] : ℚ) / (10 : ℚ) ^ 1),
          light_right_v := some ((digitsVal ['3'] : ℚ) + (digitsVal ['4'] : ℚ) / (10 : ℚ) ^ 1) }) ∧
    runHandle initialState "CMD_LIGHT#1.2" =
      { initialState with last_status := some "CMD_LIGHT#1.2" } :=
  ⟨(c3_light_atomic_pair initialState "CMD_LIGHT#1.2#3.4").1 "1.2" "3.4" []
      ((digitsVal ['1'] : ℚ) + (digitsVal ['2'] : ℚ) / (10 : ℚ) ^ 1)
      ((digitsVal ['3'] : ℚ) + (digitsVal ['4'] : ℚ) / (10 : ℚ) ^ 1) rfl rfl rfl,
   (c3_light_atomic_pair initialState "CMD_LIGHT#1.2").2.1 "1.2" rfl⟩

/-- Claim C4: for every status line of tag `CMD_SONIC`: if the first field
parses as a float, `ultrasonic_cm` is set to it; if it does not parse,
`ultrasonic_cm` (and every other field) is left unchanged while
`last_status` still records the raw line; the handler is a total function,
so processing always continues. -/
theorem c4_sonic_parse_or_ignore (s : RobotState) (line f : String) (rest : List String)
    (hsplit : pySplit line '#' = "CMD_SONIC" :: f :: rest) :
    (∀ d : ℚ, pyFloat f = some d →
      runHandle s line =
        { s with last_status := some line, ultrasonic_cm := some d }) ∧
    (pyFloat f = none →
      runHandle s line = { s with last_status := some line }) := by
  constructor
  · intro d hd
    simp [runHandle, handle_status_line, tagSections, hsplit, hd,
      runSections, applySection, applyWrite]
  · intro hn
    simp [runHandle, handle_status_line, tagSections, hsplit, hn,
      runSections, applySection, applyWrite]

/-- Claim C4 witness: the spec's examples `CMD_SONIC#23.5` and
`CMD_SONIC#notanumber`. -/
theorem c4_witness :
    runHandle initialState "CMD_SONIC#23.5" =
      { initialState with
          last_status := some "CMD_SONIC#23.5",
          ultrasonic_cm := some ((digitsVal ['2', '3'] : ℚ) + (digitsVal ['5'] : ℚ) / (10 : ℚ) ^ 1) } ∧
    runHandle initialState "CMD_SONIC#notanumber" =
      { initialState with last_status := some "CMD_SONIC#notanumber" } :=
  ⟨(c4_sonic_parse_or_ignore initialState "CMD_SONIC#23.5" "23.5" [] rfl).1
      ((digitsVal ['2', '3'] : ℚ) + (digitsVal ['5'] : ℚ) / (10 : ℚ) ^ 1) rfl,
   (c4_sonic_parse_or_ignore initialState "CMD_SONIC#notanumber" "notanumber" [] rfl).2 rfl⟩

/-- `PowerInv` in implication form. -/
lemma powerInv_iff (s : RobotState) :
    PowerInv s ↔ ∀ p, s.power_percent = some p → 0 ≤ p ∧ p ≤ 100 := by
  unfold PowerInv
  cases s.power_percent <;> simp

/-- `PowerInv` only depends on the `power_percent` field. -/
lemma powerInv_congr {s t : RobotState} (h : t.power_percent = s.power_percent)
    (hs : PowerInv s) : PowerInv t := by
  rw [powerInv_iff] at hs ⊢
  intro p hp
  exact hs p (by rw [← h, hp])

/-- The stored battery percentage always lands in `[0, 100]`: the clamp
bounds the rational and truncation keeps the bounds. -/
lemma pyInt_powerClamp_mem (v : ℚ) :
    0 ≤ pyInt (powerClamp v) ∧ pyInt (powerClamp v) ≤ 100 := by
  rw [pyInt_powerClamp]
  constructor
  · exact Int.le_floor.mpr (by exact_mod_cast le_max_left 0 _)
  · have h : powerClamp v ≤ 100 := max_le (by norm_num) (min_le_left _ _)
    calc ⌊powerClamp v⌋ ≤ ⌊(100 : ℚ)⌋ := Int.floor_le_floor h
      _ = 100 := by norm_num

/-- The tag dispatch produces one of four section shapes. -/
lemma tagSections_cases (parts : List String) :
    tagSections parts = [] ∨
    (∃ d, tagSections parts = [[FieldWrite.ultrasonicCm d]]) ∨
    (∃ l r, tagSections parts = [[FieldWrite.lightLeftV l, FieldWrite.lightRightV r]]) ∨
    (∃ v, tagSections parts = [[FieldWrite.powerPercent (pyInt (powerClamp v))]]) := by
  rcases parts with _ | ⟨cmd, fields⟩
  · left; rfl
  · rw [tagSections]
    split_ifs with h1 h2 h3
    · rcases h : pyFloat (fields.getD 0 "") with _ | d
      · left; rfl
      · right; left; exact ⟨d, rfl⟩
    · rcases ha : pyFloat (fields.getD 0 "") with _ | l <;>
        rcases hb : pyFloat (fields.getD 1 "") with _ | r
      · left; rfl
      · left; rfl
      · left; rfl
      · right; right; left; exact ⟨l, r, rfl⟩
    · rcases h : pyFloat (fields.getD 0 "") with _ | v
      · left; rfl
      · right; right; right; exact ⟨v, rfl⟩
    · left; rfl

/-- The handler preserves the power invariant: it either leaves
`power_percent` alone or stores a clamped-and-truncated value. -/
lemma powerInv_runHandle (s : RobotState) (line : String) (h : PowerInv s) :
    PowerInv (runHandle s line) := by
  rw [runHandle, handle_status_line]
  rcases tagSections_cases (pySplit line '#') with hc | ⟨d, hc⟩ | ⟨l, r, hc⟩ | ⟨v, hc⟩ <;>
    rw [hc]
  · exact powerInv_congr (by simp [runSections, applySection, applyWrite]) h
  · exact powerInv_congr (by simp [runSections, applySection, applyWrite]) h
  · exact powerInv_congr (by simp [runSections, applySection, applyWrite]) h
  · rw [powerInv_iff]
    intro p hp
    simp [runSections, applySection, applyWrite] at hp
    exact hp ▸ pyInt_powerClamp_mem v

/-- Folding the handler over the complete lines of a buffer preserves the
power invariant. -/
lemma powerInv_foldl_lines (L : List String) :
    ∀ s, PowerInv s →
      PowerInv (L.foldl (fun st l => if pyStrip l = "" then st else runHandle st (pyStrip l)) s) := by
  induction L with
  | nil => intro s hs; exact hs
  | cons x xs ih =>
    intro s hs
    rw [List.foldl_cons]
    by_cases hx : pyStrip x = ""
    · rw [if_pos hx]; exact ih s hs
    · rw [if_neg hx]; exact ih _ (powerInv_runHandle s (pyStrip x) hs)

/-- `processBuffer` preserves the power invariant. -/
lemma powerInv_processBuffer (buffer : String) (s : RobotState) (h : PowerInv s) :
    PowerInv (processBuffer buffer s).2 :=
  powerInv_foldl_lines _ s h

/-- `disconnect` does not touch `power_percent`. -/
lemma disconnect_power (b : BridgeState) :
    (disconnect b).state.power_percent = b.state.power_percent := rfl

/-- `_command_loop` preserves the power invariant of the carried state. -/
lemma powerInv_command_loop (tr : List (Bool × CmdEv)) :
    ∀ buffer b, PowerInv b.state →
      PowerInv ((command_loop buffer b tr).stateOf).state := by
  induction tr with
  | nil => intro buffer b h; exact h
  | cons s rest ih =>
    intro buffer b h
    obtain ⟨running, ev⟩ := s
    rw [command_loop.eq_def]
    dsimp only
    by_cases hr : running = false
    · rw [if_pos hr]; exact powerInv_congr (disconnect_power b) h
    · rw [if_neg hr]
      by_cases hs : b.hasCommandSocket = false
      · rw [if_pos hs]; exact powerInv_congr (disconnect_power b) h
      · rw [if_neg hs]
        rcases ev with _ | _ | d
        · exact ih buffer b h
        · exact powerInv_congr (disconnect_power b) h
        · dsimp only
          by_cases hd : d = ""
          · rw [if_pos hd]; exact powerInv_congr (disconnect_power b) h
          · rw [if_neg hd]
            exact ih _ _ (powerInv_processBuffer (buffer ++ d) b.state h)

/-- `_video_loop` preserves the power invariant of the carried state. -/
lemma powerInv_video_loop (fuel : ℕ) :
    ∀ b times tr, PowerInv b.state →
      PowerInv ((video_loop fuel b times tr).stateOf).state := by
  induction fuel with
  | zero => intro b times tr h; exact h
  | succ fuel ih =>
    intro b times tr h
    rw [video_loop]
    by_cases hr : b.running = false
    · rw [if_pos hr]; exact powerInv_congr (disconnect_power b) h
    · rw [if_neg hr]
      by_cases hs : b.hasVideoSocket = false
      · rw [if_pos hs]; exact powerInv_congr (disconnect_power b) h
      · rw [if_neg hs]
        rcases hrecv : recv_exact 4 [] tr with ⟨res, rest⟩
        rcases res with hdr | _ | _
        · dsimp only
          by_cases hh : hdr = []
          · rw [if_pos hh]; exact powerInv_congr (disconnect_power b) h
          · rw [if_neg hh]
            by_cases h4 : hdr.length = 4
            · rw [if_pos h4]
              by_cases h0 : leVal hdr = 0
              · rw [if_pos h0]; exact ih b times rest h
              · rw [if_neg h0]
                rcases hrecv2 : recv_exact (leVal hdr) [] rest with ⟨res2, rest2⟩
                rcases res2 with frame | _ | _
                · dsimp only
                  by_cases hf : frame = []
                  · rw [if_pos hf]; exact powerInv_congr (disconnect_power b) h
                  · rw [if_neg hf]; exact ih _ _ _ h
                · exact powerInv_congr (disconnect_power b) h
                · exact h
            · rw [if_neg h4]; exact h
        · exact powerInv_congr (disconnect_power b) h
        · exact h

/-- Claim C8: whenever `power_percent` is present its value lies in
`[0, 100]`; the invariant holds initially and is preserved by every
operation of the bridge — the status-line handler (its only writer, which
clamps then truncates before storing), `disconnect`, `send_command`,
`connect` (either outcome), and both reader loops. -/
theorem c8_power_percent_invariant :
    PowerInv initialState ∧
    (∀ s line, PowerInv s → PowerInv (runHandle s line)) ∧
    (∀ b, PowerInv b.state → PowerInv (disconnect b).state) ∧
    (∀ b w c, PowerInv b.state → PowerInv (send_command b w c).2.state) ∧
    (∀ ip ok b, PowerInv b.state → PowerInv (connect ip ok b).2.state) ∧
    (∀ buffer b tr, PowerInv b.state →
      PowerInv ((command_loop buffer b tr).stateOf).state) ∧
    (∀ fuel b times tr, PowerInv b.state →
      PowerInv ((video_loop fuel b times tr).stateOf).state) := by
  refine ⟨trivial, powerInv_runHandle, ?_, ?_, ?_,
    fun buffer b tr => powerInv_command_loop tr buffer b,
    fun fuel b times tr => powerInv_video_loop fuel b times tr⟩
  · intro b h; exact powerInv_congr (disconnect_power b) h
  · intro b w c h
    rw [send_command]
    split_ifs <;> exact h
  · intro ip ok b h
    rw [connect]
    split_ifs <;> exact h

/-- Claim C8 witness: the invariant holds after handling a power line from
the fresh state. -/
theorem c8_witness : PowerInv (runHandle initialState "CMD_POWER#8") :=
  c8_power_percent_invariant.2.1 initialState "CMD_POWER#8" trivial

/-- Claim C5: `send_command` fails with the not-connected `RuntimeError`
whenever the command socket is absent or `connected` is false, leaving the
whole bridge state unchanged; on a successful write it records the command
stripped of surrounding whitespace as `last_command`; on a failing write the
`OSError` is surfaced and no state field changes. -/
theorem c5_send_command (b : BridgeState) (command : String) (w : Bool) :
    (¬ b.hasCommandSocket ∨ ¬ b.state.connected →
      send_command b w command = (.error .notConnected, b)) ∧
    (b.hasCommandSocket → b.state.connected → w = false →
      send_command b w command = (.error .transport, b)) ∧
    (b.hasCommandSocket → b.state.connected → w = true →
      send_command b w command =
        (.ok (), { b with state := { b.state with
                     last_command := some (pyStrip command) } })) := by
  refine ⟨?_, ?_, ?_⟩
  · intro h
    rw [send_command, if_pos h]
  · intro h1 h2 hw
    rw [send_command, if_neg (by simp [h1, h2]), if_pos (by simp [hw])]
  · intro h1 h2 hw
    rw [send_command, if_neg (by simp [h1, h2]), if_neg (by simp [hw])]

/-- Claim C5 witness: a connected bridge accepts a write and records the
trimmed command; a fresh (disconnected) bridge raises not-connected and is
unchanged. -/
theorem c5_witness :
    send_command
        { state := { initialState with connected := true },
          hasCommandSocket := true, hasVideoSocket := true, running := true }
        true " CMD_MOVE#1 " =
      (.ok (), { state := { { initialState with connected := true } with
                   last_command := some (pyStrip " CMD_MOVE#1 ") },
                 hasCommandSocket := true, hasVideoSocket := true, running := true }) ∧
    send_command {} true "CMD_MOVE" = (.error .notConnected, {}) :=
  ⟨(c5_send_command
      { state := { initialState with connected := true },
        hasCommandSocket := true, hasVideoSocket := true, running := true }
      " CMD_MOVE#1 " true).2.2 (by decide) (by decide) rfl,
   (c5_send_command {} "CMD_MOVE" true).1 (Or.inl (by decide))⟩

/-- Claim C6: after `disconnect`, from any state, `connected` is false,
`last_status` is the fixed `"Disconnected"` marker, both socket fields are
cleared, every other state field keeps its prior value, and the operation is
idempotent. -/
theorem c6_disconnect_markers_and_stale_fields (b : BridgeState) :
    (disconnect b).state.connected = false ∧
    (disconnect b).state.last_status = some "Disconnected" ∧
    (disconnect b).hasCommandSocket = false ∧
    (disconnect b).hasVideoSocket = false ∧
    (disconnect b).state.ip = b.state.ip ∧
    (disconnect b).state.power_percent = b.state.power_percent ∧
    (disconnect b).state.ultrasonic_cm = b.state.ultrasonic_cm ∧
    (disconnect b).state.light_left_v = b.state.light_left_v ∧
    (disconnect b).state.light_right_v = b.state.light_right_v ∧
    (disconnect b).state.last_command = b.state.last_command ∧
    (disconnect b).state.last_frame = b.state.last_frame ∧
    (disconnect b).state.last_frame_time = b.state.last_frame_time ∧
    disconnect (disconnect b) = disconnect b :=
  ⟨rfl, rfl, rfl, rfl, rfl, rfl, rfl, rfl, rfl, rfl, rfl, rfl, rfl⟩

/-- Claim C10: a failed `connect` re-raises the connection error with
`connected` still false and all sensor, frame and `last_command` fields
unchanged, but the rollback is not state-atomic: `ip` keeps the attempted
address and `last_status` has been overwritten to the `"Disconnected"`
marker even though the connect failed. -/
theorem c10_connect_failure_partial_rollback (ip : String) (b : BridgeState) :
    (connect ip false b).1 = true ∧
    (connect ip false b).2.state.connected = false ∧
    (connect ip false b).2.state.ip = some ip ∧
    (connect ip false b).2.state.last_status = some "Disconnected" ∧
    (connect ip false b).2.state.power_percent = b.state.power_percent ∧
    (connect ip false b).2.state.ultrasonic_cm = b.state.ultrasonic_cm ∧
    (connect ip false b).2.state.light_left_v = b.state.light_left_v ∧
    (connect ip false b).2.state.light_right_v = b.state.light_right_v ∧
    (connect ip false b).2.state.last_command = b.state.last_command ∧
    (connect ip false b).2.state.last_frame = b.state.last_frame ∧
    (connect ip false b).2.state.last_frame_time = b.state.last_frame_time ∧
    (connect ip false b).2.hasCommandSocket = false ∧
    (connect ip false b).2.hasVideoSocket = false ∧
    (connect ip false b).2.running = false :=
  ⟨rfl, rfl, rfl, rfl, rfl, rfl, rfl, rfl, rfl, rfl, rfl, rfl, rfl, rfl⟩

/-- While every observed `running` is true, a successful `_recv_exact`
carries exactly the requested number of bytes (induction invariant: the
accumulated `data` never exceeds the request, because each `recv` is capped
at `length - len(data)`). -/
lemma recv_exact_ok_length (tr : List Step) :
    ∀ n (data bs : List ℕ), data.length ≤ n → (∀ s ∈ tr, s.running = true) →
      (recv_exact n data tr).1 = .ok bs → bs.length = n := by
  induction tr with
  | nil =>
    intro n data bs hle hrun hok
    rw [recv_exact] at hok
    by_cases h : n ≤ data.length
    · rw [if_pos h] at hok
      cases hok
      omega
    · rw [if_neg h] at hok
      cases hok
  | cons s rest ih =>
    intro n data bs hle hrun hok
    rw [recv_exact] at hok
    by_cases h : n ≤ data.length
    · rw [if_pos h] at hok
      cases hok
      omega
    · rw [if_neg h] at hok
      have hsrun : s.running = true := hrun s (List.mem_cons_self s rest)
      rw [if_neg (by simp [hsrun])] at hok
      have hrun' : ∀ t ∈ rest, t.running = true :=
        fun t ht => hrun t (List.mem_cons_of_mem s ht)
      rcases hev : s.ev with _ | _ | bs'
      all_goals rw [hev] at hok
      · exact ih n data bs hle hrun' hok
      · cases hok
      · dsimp only at hok
        by_cases hc : bs'.take (n - data.length) = []
        · rw [if_pos hc] at hok
          cases hok
        · rw [if_neg hc] at hok
          refine ih n _ bs ?_ hrun' hok
          have := List.length_take (n - data.length) bs'
          simp only [List.length_append]
          omega

/-- Claim C2 (amended): while the stop flag stays set (`running` observed
true at every step), `_recv_exact` returns either exactly the requested
number of bytes or a failure indication (`None`), never a shorter payload;
and a read timeout just retries instead of failing.  (Without the stop-flag
condition this is false: see the counterexample.) -/
theorem c2_recv_exact_all_or_nothing (n : ℕ) (tr : List Step) :
    ((∀ s ∈ tr, s.running = true) →
      ∀ bs, (recv_exact n [] tr).1 = .ok bs → bs.length = n) ∧
    (∀ (data : List ℕ) (s : Step) (rest : List Step),
      data.length < n → s.running = true → s.ev = .timeout →
      recv_exact n data (s :: rest) = recv_exact n data rest) := by
  constructor
  · intro hrun bs hok
    exact recv_exact_ok_length tr n [] bs (by simp) hrun hok
  · intro data s rest hlt hsrun hev
    rw [recv_exact, if_neg (by omega), if_neg (by simp [hsrun]), hev]

/-- Claim C2 witness: a single full chunk under a set stop flag yields
exactly 4 bytes; a timeout step is skipped. -/
theorem c2_witness :
    ([1, 2, 3, 4] : List ℕ).length = 4 ∧
    recv_exact 4 [7] (⟨true, RecvEv.timeout⟩ :: [⟨true, RecvEv.chunk [8]⟩]) =
      recv_exact 4 [7] [⟨true, RecvEv.chunk [8]⟩] :=
  ⟨(c2_recv_exact_all_or_nothing 4 [⟨true, RecvEv.chunk [1, 2, 3, 4]⟩]).1
      (by decide) [1, 2, 3, 4] (by decide),
   (c2_recv_exact_all_or_nothing 4 []).2 [7] ⟨true, RecvEv.timeout⟩
      [⟨true, RecvEv.chunk [8]⟩] (by decide) rfl rfl⟩

/-- Claim C2, counterexample: with requested length 4, a trace that delivers
2 bytes and then observes the stop flag cleared makes `_recv_exact` return
the 2-byte payload `[1, 2]` — a truthy, non-`None` value shorter than the
request, so the primitive does **not** always return "exactly N bytes or a
failure indication". -/
theorem c2_counterexample :
    (recv_exact 4 [] [⟨true, RecvEv.chunk [1, 2]⟩, ⟨false, RecvEv.timeout⟩]).1 =
      .ok [1, 2] ∧
    ([1, 2] : List ℕ) ≠ [] ∧
    ([1, 2] : List ℕ).length < 4 := by
  exact ⟨by decide, by decide, by decide⟩

/-- Every exit of `_command_loop` goes through the trailing
`self.disconnect()`, so the final state has `connected = false`. -/
lemma command_loop_done_connected (tr : List (Bool × CmdEv)) :
    ∀ buffer b b', command_loop buffer b tr = .done b' →
      b'.state.connected = false ∧ b'.state.last_status = some "Disconnected" := by
  induction tr with
  | nil =>
    intro buffer b b' hdone
    cases hdone
  | cons s rest ih =>
    intro buffer b b' hdone
    obtain ⟨running, ev⟩ := s
    rw [command_loop.eq_def] at hdone
    dsimp only at hdone
    by_cases hr : running = false
    · rw [if_pos hr] at hdone
      cases hdone
      exact ⟨rfl, rfl⟩
    · rw [if_neg hr] at hdone
      by_cases hs : b.hasCommandSocket = false
      · rw [if_pos hs] at hdone
        cases hdone
        exact ⟨rfl, rfl⟩
      · rw [if_neg hs] at hdone
        rcases ev with _ | _ | d
        · exact ih buffer b b' hdone
        · cases hdone
          exact ⟨rfl, rfl⟩
        · dsimp only at hdone
          by_cases hd : d = ""
          · rw [if_pos hd] at hdone
            cases hdone
            exact ⟨rfl, rfl⟩
          · rw [if_neg hd] at hdone
            exact ih _ _ b' hdone

/-- Every exit of `_video_loop` (other than thread death on a malformed
header, which only a mid-read stop-flag clear can cause) goes through the
trailing `self.disconnect()`. -/
lemma video_loop_done_connected (fuel : ℕ) :
    ∀ b times tr b', video_loop fuel b times tr = .done b' →
      b'.state.connected = false ∧ b'.state.last_status = some "Disconnected" := by
  induction fuel with
  | zero =>
    intro b times tr b' hdone
    cases hdone
  | succ fuel ih =>
    intro b times tr b' hdone
    rw [video_loop] at hdone
    by_cases hr : b.running = false
    · rw [if_pos hr] at hdone
      cases hdone
      exact ⟨rfl, rfl⟩
    · rw [if_neg hr] at hdone
      by_cases hs : b.hasVideoSocket = false
      · rw [if_pos hs] at hdone
        cases hdone
        exact ⟨rfl, rfl⟩
      · rw [if_neg hs] at hdone
        rcases hrecv : recv_exact 4 [] tr with ⟨res, rest⟩
        rw [hrecv] at hdone
        rcases res with hdr | _ | _
        · dsimp only at hdone
          by_cases hh : hdr = []
          · rw [if_pos hh] at hdone
            cases hdone
            exact ⟨rfl, rfl⟩
          · rw [if_neg hh] at hdone
            by_cases h4 : hdr.length = 4
            · rw [if_pos h4] at hdone
              by_cases h0 : leVal hdr = 0
              · rw [if_pos h0] at hdone
                exact ih b times rest b' hdone
              · rw [if_neg h0] at hdone
                rcases hrecv2 : recv_exact (leVal hdr) [] rest with ⟨res2, rest2⟩
                rw [hrecv2] at hdone
                rcases res2 with frame | _ | _
                · dsimp only at hdone
                  by_cases hf : frame = []
                  · rw [if_pos hf] at hdone
                    cases hdone
                    exact ⟨rfl, rfl⟩
                  · rw [if_neg hf] at hdone
                    exact ih _ _ _ b' hdone
                · cases hdone
                  exact ⟨rfl, rfl⟩
                · cases hdone
            · rw [if_neg h4] at hdone
              cases hdone
        · cases hdone
          exact ⟨rfl, rfl⟩
        · cases hdone

/-- Claim C9: in either reader loop a zero-byte read (peer closed) or a
non-timeout transport error ends the loop and triggers `disconnect()`, so
any `done` outcome has `connected = false` without external intervention; a
read timeout does not end the loop, which simply retries on the remaining
trace. -/
theorem c9_reader_loops_disconnect_on_error :
    (∀ buffer b tr b', command_loop buffer b tr = .done b' →
      b'.state.connected = false) ∧
    (∀ fuel b times tr b', video_loop fuel b times tr = .done b' →
      b'.state.connected = false) ∧
    (∀ buffer b rest, b.hasCommandSocket = true →
      command_loop buffer b ((true, CmdEv.chunk "") :: rest) = .done (disconnect b) ∧
      command_loop buffer b ((true, CmdEv.err) :: rest) = .done (disconnect b) ∧
      command_loop buffer b ((true, CmdEv.timeout) :: rest) =
        command_loop buffer b rest) ∧
    (∀ fuel b times rest, b.running = true → b.hasVideoSocket = true →
      video_loop (fuel + 1) b times (⟨true, RecvEv.chunk []⟩ :: rest) =
        .done (disconnect b) ∧
      video_loop (fuel + 1) b times (⟨true, RecvEv.err⟩ :: rest) =
        .done (disconnect b)) := by
  refine ⟨?_, ?_, ?_, ?_⟩
  · intro buffer b tr b' hdone
    exact (command_loop_done_connected tr buffer b b' hdone).1
  · intro fuel b times tr b' hdone
    exact (video_loop_done_connected fuel b times tr b' hdone).1
  · intro buffer b rest hsock
    refine ⟨?_, ?_, ?_⟩ <;>
      · rw [command_loop.eq_def]
        simp [hsock]
  · intro fuel b times rest hrun hsock
    constructor
    · rw [video_loop, if_neg (by simp [hrun]), if_neg (by simp [hsock]),
        show recv_exact 4 [] (⟨true, RecvEv.chunk []⟩ :: rest) = (.fail, rest) from rfl]
    · rw [video_loop, if_neg (by simp [hrun]), if_neg (by simp [hsock]),
        show recv_exact 4 [] (⟨true, RecvEv.err⟩ :: rest) = (.fail, rest) from rfl]

/-- Claim C9 witness: a fully connected bridge whose command socket sees a
zero-byte read ends with `connected = false`. -/
theorem c9_witness :
    command_loop ""
        { state := { initialState with connected := true },
          hasCommandSocket := true, hasVideoSocket := true, running := true }
        [(true, CmdEv.chunk "")] =
      .done (disconnect
        { state := { initialState with connected := true },
          hasCommandSocket := true, hasVideoSocket := true, running := true }) ∧
    command_loop ""
        { state := { initialState with connected := true },
          hasCommandSocket := true, hasVideoSocket := true, running := true }
        [(true, CmdEv.timeout)] =
      command_loop ""
        { state := { initialState with connected := true },
          hasCommandSocket := true, hasVideoSocket := true, running := true } [] :=
  ⟨(c9_reader_loops_disconnect_on_error.2.2.1 ""
      { state := { initialState with connected := true },
        hasCommandSocket := true, hasVideoSocket := true, running := true }
      [] rfl).1,
   (c9_reader_loops_disconnect_on_error.2.2.1 ""
      { state := { initialState with connected := true },
        hasCommandSocket := true, hasVideoSocket := true, running := true }
      [] rfl).2.2⟩

/-- Once the accumulated data satisfies the request, `_recv_exact` returns
it without touching the trace. -/
lemma recv_exact_done (n : ℕ) (data : List ℕ) (tr : List Step)
    (h : n ≤ data.length) :
    recv_exact n data tr = (.ok data, tr) := by
  cases tr with
  | nil =>
    rw [recv_exact.eq_def]
    dsimp only
    rw [if_pos h]
  | cons s rest =>
    rw [recv_exact.eq_def]
    dsimp only
    rw [if_pos h]

/-- A single `recv` delivering exactly the requested bytes under a set stop
flag completes `_recv_exact` in one iteration. -/
lemma recv_exact_one_chunk (n : ℕ) (bs : List ℕ) (rest : List Step)
    (hlen : bs.length = n) (hn : 0 < n) :
    recv_exact n [] (⟨true, RecvEv.chunk bs⟩ :: rest) = (.ok bs, rest) := by
  have hne : bs ≠ [] := by
    intro hbs
    rw [hbs] at hlen
    simp at hlen
    omega
  rw [recv_exact.eq_def]
  dsimp only
  rw [if_neg (by simp; omega)]
  rw [if_neg (by simp)]
  rw [show List.take (n - List.length ([] : List ℕ)) bs = bs from by
    simp [List.take_of_length_le, hlen]]
  rw [if_neg hne]
  rw [recv_exact_done n ([] ++ bs) rest (by simp [hlen])]
  simp

/-- Claim C7: in `_video_loop`, a 4-byte little-endian header of value
`N > 0` followed by a successfully read `N`-byte payload stores exactly that
payload as `last_frame` and the current time as `last_frame_time`, both in
the same critical section (a single state update of the iteration), after
which the loop continues; a header of value zero is skipped with the state
untouched and the loop continuing. -/
theorem c7_video_frame_and_time (b : BridgeState) (times : List ℚ) (fuel : ℕ)
    (h0 h1 h2 h3 : ℕ) (payload : List ℕ) (rest : List Step) :
    (b.running = true → b.hasVideoSocket = true →
      payload.length = leVal [h0, h1, h2, h3] → 0 < leVal [h0, h1, h2, h3] →
      video_loop (fuel + 1) b times
          (⟨true, RecvEv.chunk [h0, h1, h2, h3]⟩ :: ⟨true, RecvEv.chunk payload⟩ :: rest) =
        video_loop fuel
          { b with state := { b.state with
              last_frame := some payload,
              last_frame_time := some (times.headD 0) } }
          times.tail rest) ∧
    (b.running = true → b.hasVideoSocket = true →
      video_loop (fuel + 1) b times (⟨true, RecvEv.chunk [0, 0, 0, 0]⟩ :: rest) =
        video_loop fuel b times rest) := by
  constructor
  · intro hr hs hlen hpos
    have hpne : payload ≠ [] := by
      intro hp
      rw [hp] at hlen
      simp at hlen
      omega
    rw [video_loop, if_neg (by simp [hr]), if_neg (by simp [hs])]
    rw [recv_exact_one_chunk 4 [h0, h1, h2, h3] _ rfl (by norm_num)]
    dsimp only
    rw [if_neg (by simp)]
    rw [if_pos (show ([h0, h1, h2, h3] : List ℕ).length = 4 from rfl)]
    rw [if_neg (by omega)]
    rw [recv_exact_one_chunk (leVal [h0, h1, h2, h3]) payload rest hlen hpos]
    dsimp only
    rw [if_neg hpne]
  · intro hr hs
    rw [video_loop, if_neg (by simp [hr]), if_neg (by simp [hs])]
    rw [recv_exact_one_chunk 4 [0, 0, 0, 0] rest rfl (by norm_num)]
    dsimp only
    rw [if_neg (by simp),
      if_pos (show ([0, 0, 0, 0] : List ℕ).length = 4 from rfl),
      if_pos (show leVal [0, 0, 0, 0] = 0 from rfl)]

/-- Claim C7 witness: header `[2,0,0,0]` (value 2) then payload `[9,9]`
stores the frame and timestamp together; fuel 1, time oracle `[5]`. -/
theorem c7_witness :
    video_loop 1
        { state := { initialState with connected := true },
          hasCommandSocket := true, hasVideoSocket := true, running := true }
        [(5 : ℚ)]
        [⟨true, RecvEv.chunk [2, 0, 0, 0]⟩, ⟨true, RecvEv.chunk [9, 9]⟩] =
      video_loop 0
        { state := { { initialState with connected := true } with
            last_frame := some [9, 9],
            last_frame_time := some (([(5 : ℚ)]).headD 0) },
          hasCommandSocket := true, hasVideoSocket := true, running := true }
        ([(5 : ℚ)]).tail [] :=
  (c7_video_frame_and_time
      { state := { initialState with connected := true },
        hasCommandSocket := true, hasVideoSocket := true, running := true }
      [(5 : ℚ)] 0 2 0 0 0 [9, 9] []).1 rfl rfl (by decide) (by decide)

end FreenoveBridge
